import Mathlib

/-!
Shallow embedding of `new_calc.py` (Charlson comorbidity score, Deyo
modification).

The module-level mapping loaded from `new_codes.json` is modelled by
passing the mapping table (`mappingdata`) explicitly to `calculate_score`;
the loading itself is I/O and out of scope.

Python values that can appear in the `icd_codes` argument are modelled by
`PyVal`/`PyIn`.  A raised `KeyError` (unknown mapping version) and a raised
`TypeError` (calling `str.startswith` with a list argument) are modelled as
explicit constructors of `CalcResult`; a returned `None` (invalid input) is
the constructor `invalidInput`.  The `print` calls performed when
`list_cat` is true are collected in the `printed` field of the `ok` result,
separate from the returned score.

Python `set` iteration order (used by the dependency-removal loop and the
printing loop over `scored_categories`) is unspecified at the language
level; since the category ids come from iterating the (insertion-ordered)
mapping dict and each is added at most once, the model keeps
`scored_categories` as an insertion-ordered duplicate-free list, and the
dependency-removal pass (`removeDeps`) is additionally stated over an
arbitrary iteration order where order matters.
-/

/-- A Python value that can occur inside the `icd_codes` list. -/
inductive PyVal where
  | vstr (s : String)
  | vint (n : Int)
deriving DecidableEq, Repr

/-- The `icd_codes` argument: a string, a list, or some other object. -/
inductive PyIn where
  | pystr (s : String)
  | pylist (xs : List PyVal)
  | pyint (n : Int)
deriving DecidableEq, Repr

/-- The `codes` field of a code group: either a flat list of code strings
(the shape used with condition `any`) or a list of sub-groups (the shape
used with condition `both`), as found in the JSON mapping data. -/
inductive GroupCodes where
  | flat (cs : List String)
  | nested (gs : List (List String))
deriving DecidableEq, Repr

/-- A code group: a JSON object with a `condition` string and a `codes`
field. -/
structure CodeGroup where
  condition : String
  codes : GroupCodes
deriving DecidableEq, Repr

/-- A category of the mapping: display name, weight, its code groups and
the optional `depends_on` list. -/
structure Category where
  name : String
  weight : Nat
  codes : List CodeGroup
  depends_on : Option (List String)
deriving DecidableEq, Repr

/-- Python `dict` lookup on an insertion-ordered association list. -/
def lookup {α : Type} (l : List (String × α)) (k : String) : Option α :=
  match l with
  | [] => none
  | (k', v) :: rest => if k' == k then some v else lookup rest k

/-- `check_codes_exact` of `new_calc.py`, after the `icd_codes` argument
has been normalized to a list of strings (the Python function wraps a bare
string into a one-element list before doing anything else).

With condition `any` and nested codes, Python evaluates `code in icd_codes`
where `code` is a list: never equal to a string, hence `false`.  With
condition `both` and flat codes, `for code in group` iterates the
characters of the string `group`, hence the character-wise translation. -/
def check_codes_exact (icd_codes : List String) (code_group : CodeGroup) : Bool :=
  if code_group.condition == "any" then
    match code_group.codes with
    | .flat cs => cs.any (fun code => icd_codes.contains code)
    | .nested _ => false
  else if code_group.condition == "both" then
    match code_group.codes with
    | .flat cs =>
        cs.all (fun s => s.toList.any (fun ch => icd_codes.contains (String.mk [ch])))
    | .nested gs => gs.all (fun g => g.any (fun code => icd_codes.contains code))
  else
    false

/-- Python `code.startswith(pre)`: the characters of `pre` are an initial
segment of the characters of `code`. -/
def pyStartswith (code pre : String) : Bool :=
  pre.data.isPrefixOf code.data

/-- `check_codes_startswith` of `new_calc.py`, after normalization of the
`icd_codes` argument.  `none` models a raised `TypeError`.

With condition `any` and nested codes, the generator
`any(code.startswith(prefix) ...)` reaches a list-valued `prefix` and
raises `TypeError` as soon as both `icd_codes` and `codes` are non-empty;
otherwise the generator is empty and yields `False`.  With condition
`both`, the source iterates `for group in codes for prefix in group`, so it
requires EVERY entry of every sub-group to be a prefix of some input code
(for flat codes, `group` is a string and its entries are its characters). -/
def check_codes_startswith (icd_codes : List String) (code_group : CodeGroup) : Option Bool :=
  if code_group.condition == "any" then
    match code_group.codes with
    | .flat cs =>
        some (icd_codes.any (fun code => cs.any (fun pre => pyStartswith code pre)))
    | .nested gs =>
        if icd_codes.isEmpty || gs.isEmpty then some false else none
  else if code_group.condition == "both" then
    match code_group.codes with
    | .flat cs =>
        some (cs.all (fun s => s.toList.all (fun ch =>
          icd_codes.any (fun code => pyStartswith code (String.mk [ch])))))
    | .nested gs =>
        some (gs.all (fun g => g.all (fun pre =>
          icd_codes.any (fun code => pyStartswith code pre))))
  else
    some false

/-- The input-type validation of `calculate_score` combined with the
normalization step: a bare string becomes a one-element list, a list is
accepted when all its elements are strings, anything else yields `none`
(the Python function returns `None`). -/
def asCodes : PyIn → Option (List String)
  | .pystr s => some [s]
  | .pylist xs =>
      if xs.all (fun v => match v with | .vstr _ => true | .vint _ => false) then
        some (xs.filterMap (fun v => match v with | .vstr s => some s | .vint _ => none))
      else
        none
  | .pyint _ => none

/-- One category of the categorizer loop, prefix mode: iterate the code
groups in order, short-circuiting on the first matching group; a
`TypeError` in a reached matcher call propagates. -/
def catMatchStartswith (icd : List String) : List CodeGroup → Option Bool
  | [] => some false
  | cg :: rest =>
      match check_codes_startswith icd cg with
      | none => none
      | some true => some true
      | some false => catMatchStartswith icd rest

/-- The exact-mode categorizer loop of `calculate_score`: categories are
visited in mapping order and a category is added to `scored_categories`
when one of its code groups matches (`check_codes_exact` never raises). -/
def categorizeExact (icd : List String) : List (String × Category) → List String
  | [] => []
  | (cat, details) :: rest =>
      if details.codes.any (fun cg => check_codes_exact icd cg) then
        cat :: categorizeExact icd rest
      else
        categorizeExact icd rest

/-- The prefix-mode categorizer loop of `calculate_score`; `none` models a
`TypeError` propagating out of a matcher call. -/
def categorizeStartswith (icd : List String) : List (String × Category) → Option (List String)
  | [] => some []
  | (cat, details) :: rest =>
      match catMatchStartswith icd details.codes with
      | none => none
      | some true => (categorizeStartswith icd rest).map (fun l => cat :: l)
      | some false => categorizeStartswith icd rest

/-- `data.get(category, {})` followed by the `"depends_on" in details`
check: the `depends_on` list of a category id, when present. -/
def depsOf (data : List (String × Category)) (c : String) : Option (List String) :=
  match lookup data c with
  | some details => details.depends_on
  | none => none

/-- The dependency-removal loop of `calculate_score`.  The first list
argument is the snapshot `list(scored_categories)` being iterated; the
second is the live, mutating set.  Each visited category checks its
`depends_on` entries against the CURRENT set and removes itself when one is
present. -/
def removeDeps (data : List (String × Category)) : List String → List String → List String
  | [], scored => scored
  | c :: rest, scored =>
      match depsOf data c with
      | some deps =>
          if deps.any (fun d => scored.contains d) then
            removeDeps data rest (scored.erase c)
          else
            removeDeps data rest scored
      | none => removeDeps data rest scored

/-- Modelled from the spec (section 4.3): the decision to keep a scored
category when every `depends_on` check reads from the original,
pre-removal scored set. -/
def keepOrig (data : List (String × Category)) (scored : List String) (c : String) : Bool :=
  match depsOf data c with
  | some deps => !(deps.any (fun d => scored.contains d))
  | none => true

/-- Modelled from the spec (section 4.3), for comparison with `removeDeps`:
a resolver in which every `depends_on` check reads from the original,
pre-removal scored set, so that removals cannot affect sibling checks. -/
def resolveOriginalSet (data : List (String × Category)) (scored : List String) : List String :=
  scored.filter (fun c => keepOrig data scored c)

/-- The score-summation loop: `score += data[category]["weight"]` over the
retained categories (every retained id is a key of `data`). -/
def sumWeights (data : List (String × Category)) : List String → Nat
  | [] => 0
  | c :: rest =>
      (match lookup data c with | some details => details.weight | none => 0)
      + sumWeights data rest

/-- `data[x]['name']` (every retained id is a key of `data`). -/
def nameOf (data : List (String × Category)) (c : String) : String :=
  match lookup data c with
  | some details => details.name
  | none => ""

/-- The fixed line printed before the category names when `list_cat` is
set. -/
def headerLine : String :=
  "The categories scored according to the given ICD Codes list are:"

/-- The observable outcome of a `calculate_score` call: a raised
`KeyError` (unknown mapping id), a returned `None` (invalid input), a
raised `TypeError` (from `str.startswith`), or a returned score together
with the lines printed on stdout. -/
inductive CalcResult where
  | keyError
  | invalidInput
  | typeError
  | ok (score : Nat) (printed : List String)
deriving DecidableEq, Repr

/-- `calculate_score` of `new_calc.py`.  The mapping lookup
`mappingdata[mapping]` happens first; then the input-type validation; then
the categorizer loop (exact or prefix mode), the dependency-removal loop,
the weight summation, and finally the optional printing of the retained
category names. -/
def calculate_score (mappingdata : List (String × List (String × Category)))
    (icd_codes : PyIn) (mapping : String) (list_cat : Bool) (exact_codes : Bool) :
    CalcResult :=
  match lookup mappingdata mapping with
  | none => .keyError
  | some data =>
      match asCodes icd_codes with
      | none => .invalidInput
      | some icd =>
          match (if exact_codes then some (categorizeExact icd data)
                 else categorizeStartswith icd data) with
          | none => .typeError
          | some scored =>
              let retained := removeDeps data scored scored
              let printed :=
                if list_cat then headerLine :: retained.map (fun c => nameOf data c)
                else []
              .ok (sumWeights data retained) printed

/-- The section-3 mapping invariants on one code group, as assumed by the
empty-input claim: an `any` group is a non-empty flat code list; a `both`
group is a sequence of sub-groups at least one of which is non-empty;
other condition values are unconstrained (both matchers ignore their
codes). -/
def goodGroup (cg : CodeGroup) : Bool :=
  if cg.condition == "any" then
    match cg.codes with
    | .flat cs => !cs.isEmpty
    | .nested _ => false
  else if cg.condition == "both" then
    match cg.codes with
    | .flat _ => false
    | .nested gs => gs.any (fun g => !g.isEmpty)
  else
    true

/-- The section-3 mapping invariants on a whole category table. -/
def goodData (data : List (String × Category)) : Bool :=
  data.all (fun p => p.2.codes.all goodGroup)

/-! ## Concrete example data (mirrors the spec's concrete scenario) -/

/-- The concrete scenario of spec section 8: `liver_mild` (weight 3,
`any` group `[K74.6]`, depends on `liver_severe`) and `liver_severe`
(weight 10, `any` group `[K74.7]`). -/
def liverData : List (String × Category) :=
  [("liver_mild",
    { name := "Mild liver disease", weight := 3,
      codes := [{ condition := "any", codes := .flat ["K74.6"] }],
      depends_on := some ["liver_severe"] }),
   ("liver_severe",
    { name := "Severe liver disease", weight := 10,
      codes := [{ condition := "any", codes := .flat ["K74.7"] }],
      depends_on := none })]

/-- A one-version mapping table holding `liverData`. -/
def mdemo : List (String × List (String × Category)) := [("icdtest", liverData)]

/-- Two categories that mutually depend on each other (`A` on `B`, `B` on
`A`); used to exhibit the order-dependence of the dependency-removal
loop. -/
def dataAB : List (String × Category) :=
  [("A", { name := "catA", weight := 1, codes := [], depends_on := some ["B"] }),
   ("B", { name := "catB", weight := 1, codes := [], depends_on := some ["A"] })]

/-! ## General list lemmas used by the invariance proofs -/

/-- `List.any` only depends on the values of the predicate on the list. -/
theorem list_any_congr {α : Type} {l : List α} {p q : α → Bool}
    (h : ∀ x ∈ l, p x = q x) : l.any p = l.any q := by
  induction l with
  | nil => rfl
  | cons a l ih =>
    simp only [List.any_cons]
    rw [h a (List.mem_cons_self a l), ih (fun x hx => h x (List.mem_cons_of_mem a hx))]

/-- `List.any` is invariant under permutation of the list. -/
theorem perm_any {α : Type} {l₁ l₂ : List α} (h : l₁.Perm l₂) :
    ∀ p : α → Bool, l₁.any p = l₂.any p := by
  induction h with
  | nil => intro p; rfl
  | cons x _ ih => intro p; simp only [List.any_cons]; rw [ih p]
  | swap x y l => intro p; simp only [List.any_cons]; cases p x <;> cases p y <;> simp
  | trans _ _ ih₁ ih₂ => intro p; rw [ih₁ p, ih₂ p]

/-- `List.all` is invariant under permutation of the list. -/
theorem perm_all {α : Type} {l₁ l₂ : List α} (h : l₁.Perm l₂) :
    ∀ p : α → Bool, l₁.all p = l₂.all p := by
  induction h with
  | nil => intro p; rfl
  | cons x _ ih => intro p; simp only [List.all_cons]; rw [ih p]
  | swap x y l => intro p; simp only [List.all_cons]; cases p x <;> cases p y <;> simp
  | trans _ _ ih₁ ih₂ => intro p; rw [ih₁ p, ih₂ p]

/-- `List.contains` is invariant under permutation of the list. -/
theorem perm_contains {α : Type} [BEq α] {l₁ l₂ : List α} (h : l₁.Perm l₂) :
    ∀ a : α, l₁.contains a = l₂.contains a := by
  intro a
  rw [List.contains_eq_any_beq, List.contains_eq_any_beq, perm_any h]

/-- `List.isEmpty` is invariant under permutation of the list. -/
theorem perm_isEmpty {α : Type} {l₁ l₂ : List α} (h : l₁.Perm l₂) :
    l₁.isEmpty = l₂.isEmpty := by
  cases l₁ with
  | nil =>
    have h2 : l₂ = [] := by simpa using h.symm
    rw [h2]
  | cons a as =>
    cases l₂ with
    | nil => exact absurd h (by simp)
    | cons b bs => rfl

/-- Two lists with the same membership agree on `contains`. -/
theorem contains_congr_of_mem_iff {l₁ l₂ : List String} {a : String}
    (h : a ∈ l₁ ↔ a ∈ l₂) : l₁.contains a = l₂.contains a := by
  by_cases hm : a ∈ l₁
  · have hm₂ : a ∈ l₂ := h.mp hm
    simp [hm, hm₂]
  · have hm₂ : a ∉ l₂ := fun hx => hm (h.mpr hx)
    simp [hm, hm₂]

/-! ## C1: prefix-mode `both` matcher -/

/-- C1: the claim says the prefix-mode matcher satisfies a `both` group
when every sub-group has AT LEAST ONE matched entry, so that for
sub-groups `[[A,B],[C,D]]` the input `[A,C]` satisfies the group.  The
code instead requires EVERY entry of EVERY sub-group to prefix-match some
input code: on input `["A","C"]` it returns `false` (first conjunct) even
though every sub-group has a matched entry (last conjunct); it returns
`false` on `["A"]` as the claim also says (second conjunct), and it
returns `true` only once all four entries are matched (third conjunct). -/
theorem c1_prefix_both_requires_every_entry :
    check_codes_startswith ["A", "C"]
      { condition := "both", codes := .nested [["A", "B"], ["C", "D"]] } = some false
    ∧ check_codes_startswith ["A"]
      { condition := "both", codes := .nested [["A", "B"], ["C", "D"]] } = some false
    ∧ check_codes_startswith ["A", "B", "C", "D"]
      { condition := "both", codes := .nested [["A", "B"], ["C", "D"]] } = some true
    ∧ ([["A", "B"], ["C", "D"]].all fun g =>
        g.any fun pre => ["A", "C"].any fun code => pyStartswith code pre) = true := by
  decide

/-! ## C10: `both` group with an empty sub-group sequence -/

/-- C10: a `both` group whose sub-group sequence is empty makes both
matchers vacuously succeed (`all` over an empty sequence), for every input
code list, the empty one included. -/
theorem c10_empty_both_group_always_matches (icd : List String) :
    check_codes_exact icd { condition := "both", codes := .nested [] } = true
    ∧ check_codes_startswith icd { condition := "both", codes := .nested [] } = some true := by
  exact ⟨rfl, rfl⟩

/-! ## C6: unknown `condition` values -/

/-- C6: for a code group whose `condition` is neither `"any"` nor
`"both"`, both matchers fall through to the final `return False`: the
exact matcher returns `false` and the prefix matcher returns `some false`
(no `TypeError` is raised). -/
theorem c6_unknown_condition_safe_false (icd : List String) (cg : CodeGroup)
    (h1 : cg.condition ≠ "any") (h2 : cg.condition ≠ "both") :
    check_codes_exact icd cg = false
    ∧ check_codes_startswith icd cg = some false := by
  unfold check_codes_exact check_codes_startswith
  simp [h1, h2]

/-- Witness for C6 at the concrete condition string `"weird"`. -/
theorem c6_witness :
    check_codes_exact ["X"] { condition := "weird", codes := .flat ["X"] } = false
    ∧ check_codes_startswith ["X"] { condition := "weird", codes := .flat ["X"] } = some false :=
  c6_unknown_condition_safe_false ["X"] { condition := "weird", codes := .flat ["X"] }
    (by decide) (by decide)

/-! ## C5: unknown mapping version -/

/-- C5: when the requested mapping version id is not a key of the loaded
mapping, `calculate_score` raises `KeyError` on its very first statement
(`data = mappingdata[mapping]`): no score is computed and no other mapping
version is used, whatever the other arguments are. -/
theorem c5_unknown_mapping_fails_fast
    (md : List (String × List (String × Category))) (icd : PyIn) (mp : String)
    (lc ex : Bool) (h : lookup md mp = none) :
    calculate_score md icd mp lc ex = .keyError
    ∧ ∀ s p, (CalcResult.keyError : CalcResult) ≠ .ok s p := by
  unfold calculate_score
  rw [h]
  exact ⟨rfl, fun s p hk => by cases hk⟩

/-- Witness for C5: mapping id `"nosuch"` is absent from `mdemo`. -/
theorem c5_witness :
    calculate_score mdemo (.pylist [.vstr "A00"]) "nosuch" false false = .keyError :=
  (c5_unknown_mapping_fails_fast mdemo (.pylist [.vstr "A00"]) "nosuch" false false rfl).1

/-! ## C4: invalid input -/

/-- C4: once the mapping version is found, an `icd_codes` argument that is
neither a string nor a list of strings makes `calculate_score` return
`None` (modelled `invalidInput`), which is a distinct outcome from any
returned score, in particular from a legitimate zero score. -/
theorem c4_invalid_input_no_score
    (md : List (String × List (String × Category))) (mp : String)
    (data : List (String × Category)) (icd : PyIn) (lc ex : Bool)
    (hm : lookup md mp = some data) (hv : asCodes icd = none) :
    calculate_score md icd mp lc ex = .invalidInput
    ∧ ∀ p, (CalcResult.invalidInput : CalcResult) ≠ .ok 0 p := by
  unfold calculate_score
  rw [hm, hv]
  exact ⟨rfl, fun p hk => by cases hk⟩

/-- Witness for C4 at the mixed-type input `[123, "A00"]`. -/
theorem c4_witness :
    calculate_score mdemo (.pylist [.vint 123, .vstr "A00"]) "icdtest" false false
      = .invalidInput :=
  (c4_invalid_input_no_score mdemo "icdtest" liverData
    (.pylist [.vint 123, .vstr "A00"]) false false rfl rfl).1

/-! ## C9: mapping lookup precedes input validation -/

/-- C9: the lookup `mappingdata[mapping]` is executed before the
input-type validation, so with an unknown mapping id the call raises
`KeyError` even when `icd_codes` is invalid, and the `invalidInput`
outcome can only arise when the mapping id is known. -/
theorem c9_lookup_before_validation
    (md : List (String × List (String × Category))) (icd : PyIn) (mp : String)
    (lc ex : Bool) :
    (lookup md mp = none → calculate_score md icd mp lc ex = .keyError)
    ∧ (calculate_score md icd mp lc ex = .invalidInput →
        ∃ data, lookup md mp = some data) := by
  constructor
  · intro h
    unfold calculate_score
    rw [h]
  · intro h
    unfold calculate_score at h
    cases hm : lookup md mp with
    | none => rw [hm] at h; cases h
    | some data => exact ⟨data, rfl⟩

/-- Witness for C9: unknown mapping id together with an invalid
`icd_codes` argument still yields `KeyError`, not `invalidInput`. -/
theorem c9_witness :
    calculate_score mdemo (.pylist [.vint 123, .vstr "A00"]) "nosuch" false false
      = .keyError :=
  (c9_lookup_before_validation mdemo (.pylist [.vint 123, .vstr "A00"])
    "nosuch" false false).1 rfl

/-! ## C2: dependency suppression and the shrinking scored set -/

/-- C2: the claim fails on the code.  With mutually dependent categories
`A` and `B` both scored, the dependency loop checks against the live,
shrinking set: iterating `A` first removes `A`, after which `B` no longer
sees its dependency and survives (first conjunct) even though `B`'s
dependency `A` is in the ORIGINAL scored set; iterating in the other order
retains `A` instead (second conjunct), so the retained set depends on the
iteration order; the original-set rule of the spec would remove both
(third conjunct). -/
theorem c2_shrinking_set_counterexample :
    removeDeps dataAB ["A", "B"] ["A", "B"] = ["B"]
    ∧ removeDeps dataAB ["B", "A"] ["A", "B"] = ["A"]
    ∧ resolveOriginalSet dataAB ["A", "B"] = [] := by
  decide

/-- The dependency-removal loop characterized against the original scored
set, under the no-cascading hypothesis: every category id occurring in a
`depends_on` list of a visited category has itself no `depends_on` entry.
Such ids are never removed by the loop (only categories with a
`depends_on` entry remove themselves), so the live-set checks coincide
with checks against the original set. -/
theorem removeDeps_mem_of_no_cascade (data : List (String × Category))
    (scored : List String) :
    ∀ (order cur : List String),
      cur.Nodup →
      (∀ d, depsOf data d = none → (d ∈ cur ↔ d ∈ scored)) →
      (∀ c ∈ order, ∀ deps, depsOf data c = some deps →
        ∀ d ∈ deps, depsOf data d = none) →
      ∀ x, x ∈ removeDeps data order cur ↔
        (x ∈ cur ∧ (x ∈ order → keepOrig data scored x = true)) := by
  intro order
  induction order with
  | nil =>
    intro cur _ _ _ x
    simp [removeDeps]
  | cons c rest ih =>
    intro cur hnd hmem hdep x
    have hdep_rest : ∀ c' ∈ rest, ∀ deps, depsOf data c' = some deps →
        ∀ d ∈ deps, depsOf data d = none :=
      fun c' hc' => hdep c' (List.mem_cons_of_mem _ hc')
    cases hdc : depsOf data c with
    | none =>
      have hkc : keepOrig data scored c = true := by
        unfold keepOrig
        rw [hdc]
      simp only [removeDeps, hdc]
      rw [ih cur hnd hmem hdep_rest x]
      constructor
      · rintro ⟨h1, h2⟩
        refine ⟨h1, fun hx => ?_⟩
        rcases List.mem_cons.mp hx with rfl | hx'
        · exact hkc
        · exact h2 hx'
      · rintro ⟨h1, h2⟩
        exact ⟨h1, fun hx => h2 (List.mem_cons_of_mem _ hx)⟩
    | some deps =>
      have hdall : ∀ d ∈ deps, depsOf data d = none :=
        hdep c (List.mem_cons_self _ _) deps hdc
      have hcontains : (deps.any fun d => cur.contains d)
          = (deps.any fun d => scored.contains d) :=
        list_any_congr (fun d hd => contains_congr_of_mem_iff (hmem d (hdall d hd)))
      simp only [removeDeps, hdc]
      cases hb : (deps.any fun d => cur.contains d) with
      | true =>
        have hbs : (deps.any fun d => scored.contains d) = true :=
          hcontains.symm.trans hb
        have hkc : keepOrig data scored c = false := by
          unfold keepOrig
          rw [hdc]
          show (!(deps.any fun d => scored.contains d)) = false
          rw [hbs]
          rfl
        have hnd' : (cur.erase c).Nodup := hnd.erase c
        have hmem' : ∀ d, depsOf data d = none → (d ∈ cur.erase c ↔ d ∈ scored) := by
          intro d hd
          have hne : d ≠ c := by
            intro he
            rw [he, hdc] at hd
            cases hd
          rw [List.mem_erase_of_ne hne]
          exact hmem d hd
        rw [if_pos rfl]
        rw [ih (cur.erase c) hnd' hmem' hdep_rest x]
        by_cases hxc : x = c
        · subst hxc
          constructor
          · rintro ⟨h1, _⟩
            exact absurd ((hnd.mem_erase_iff).mp h1).1 (by simp)
          · rintro ⟨h1, h2⟩
            have hk := h2 (List.mem_cons_self _ _)
            rw [hkc] at hk
            cases hk
        · constructor
          · rintro ⟨h1, h2⟩
            refine ⟨(List.mem_erase_of_ne hxc).mp h1, fun hx => ?_⟩
            rcases List.mem_cons.mp hx with rfl | hx'
            · exact absurd rfl hxc
            · exact h2 hx'
          · rintro ⟨h1, h2⟩
            exact ⟨(List.mem_erase_of_ne hxc).mpr h1,
              fun hx => h2 (List.mem_cons_of_mem _ hx)⟩
      | false =>
        have hbs : (deps.any fun d => scored.contains d) = false :=
          hcontains.symm.trans hb
        have hkc : keepOrig data scored c = true := by
          unfold keepOrig
          rw [hdc]
          show (!(deps.any fun d => scored.contains d)) = true
          rw [hbs]
          rfl
        rw [if_neg Bool.false_ne_true]
        rw [ih cur hnd hmem hdep_rest x]
        constructor
        · rintro ⟨h1, h2⟩
          refine ⟨h1, fun hx => ?_⟩
          rcases List.mem_cons.mp hx with rfl | hx'
          · exact hkc
          · exact h2 hx'
        · rintro ⟨h1, h2⟩
          exact ⟨h1, fun hx => h2 (List.mem_cons_of_mem _ hx)⟩

/-- C2 amended: the dependency loop of `calculate_score` reads each
`depends_on` check from the progressively-shrinking set, so in general the
retained set depends on the iteration order (see the counterexample); but
whenever no category id occurring in a `depends_on` list has a
`depends_on` entry of its own — which holds for plain mild-to-severe
hierarchies — the loop retains exactly the categories whose `depends_on`
is disjoint from the ORIGINAL scored set, for EVERY iteration order of the
scored set. -/
theorem c2_amended_no_cascade (data : List (String × Category))
    (scored order : List String)
    (hnd : scored.Nodup)
    (horder : ∀ x, x ∈ order ↔ x ∈ scored)
    (hdep : ∀ c ∈ order, ∀ deps, depsOf data c = some deps →
      ∀ d ∈ deps, depsOf data d = none) :
    ∀ x, x ∈ removeDeps data order scored ↔ x ∈ resolveOriginalSet data scored := by
  intro x
  rw [removeDeps_mem_of_no_cascade data scored order scored hnd (fun d _ => Iff.rfl) hdep x]
  unfold resolveOriginalSet
  rw [List.mem_filter]
  constructor
  · rintro ⟨h1, h2⟩
    exact ⟨h1, h2 ((horder x).mpr h1)⟩
  · rintro ⟨h1, h2⟩
    exact ⟨h1, fun _ => h2⟩

/-- Witness for the amended C2 on the concrete liver mapping: both
categories scored, `liver_severe` (the only id occurring in a
`depends_on` list) has no `depends_on` of its own, and the loop agrees
with the original-set rule. -/
theorem c2_amended_witness :
    "liver_mild" ∈ removeDeps liverData ["liver_mild", "liver_severe"]
        ["liver_mild", "liver_severe"]
      ↔ "liver_mild" ∈ resolveOriginalSet liverData ["liver_mild", "liver_severe"] :=
  c2_amended_no_cascade liverData ["liver_mild", "liver_severe"]
    ["liver_mild", "liver_severe"] (by decide) (fun x => Iff.rfl)
    (by
      intro c hc deps hdeps d hd
      rcases List.mem_cons.mp hc with rfl | hc'
      · rw [show depsOf liverData "liver_mild" = some ["liver_severe"] from rfl] at hdeps
        cases hdeps
        rcases List.mem_singleton.mp hd with rfl
        rfl
      · rcases List.mem_singleton.mp hc' with rfl
        rw [show depsOf liverData "liver_severe" = none from rfl] at hdeps
        cases hdeps)
    "liver_mild"

/-! ## C3: `list_cat` prints instead of returning the names -/

/-- C3: the claim fails on the code.  With `list_cat` set, on the concrete
liver mapping the call prints the header line and the retained display
name itself (the `printed` output channel is non-empty and carries the
name), while the return value carries only the integer score. -/
theorem c3_list_cat_prints_counterexample :
    calculate_score mdemo (.pylist [.vstr "K74.6"]) "icdtest" true false
      = .ok 3 [headerLine, "Mild liver disease"]
    ∧ ([headerLine, "Mild liver disease"] : List String) ≠ [] := by
  refine ⟨by decide, by decide⟩

/-- C3 amended: when `list_cat` is set and the call completes, the entry
point itself prints the header line followed by the retained categories'
display names, and returns only the integer score; the names are made
available on stdout, not in the return value. -/
theorem c3_amended_prints_names
    (md : List (String × List (String × Category))) (icd : PyIn) (mp : String)
    (ex : Bool) (data : List (String × Category)) (icd' scored : List String)
    (hm : lookup md mp = some data)
    (hv : asCodes icd = some icd')
    (hs : (if ex then some (categorizeExact icd' data)
           else categorizeStartswith icd' data) = some scored) :
    calculate_score md icd mp true ex
      = .ok (sumWeights data (removeDeps data scored scored))
          (headerLine :: (removeDeps data scored scored).map (fun c => nameOf data c)) := by
  unfold calculate_score
  simp only [hm, hv, hs]
  rw [if_pos trivial]

/-- Witness for the amended C3 on the concrete liver mapping. -/
theorem c3_amended_witness :
    calculate_score mdemo (.pylist [.vstr "K74.6"]) "icdtest" true false
      = .ok (sumWeights liverData (removeDeps liverData ["liver_mild"] ["liver_mild"]))
          (headerLine :: (removeDeps liverData ["liver_mild"] ["liver_mild"]).map
            (fun c => nameOf liverData c)) :=
  c3_amended_prints_names mdemo (.pylist [.vstr "K74.6"]) "icdtest" false
    liverData ["K74.6"] ["liver_mild"] rfl rfl (by decide)

/-! ## C7: empty input is valid and scores 0 -/

/-- On a code group satisfying the section-3 invariants, both matchers
reject the empty input code list. -/
theorem matchers_false_on_empty_input (cg : CodeGroup) (h : goodGroup cg = true) :
    check_codes_exact [] cg = false ∧ check_codes_startswith [] cg = some false := by
  obtain ⟨cond, codes⟩ := cg
  by_cases hc1 : cond = "any"
  · subst hc1
    cases codes with
    | flat cs =>
      refine ⟨?_, rfl⟩
      show (cs.any fun code => List.contains [] code) = false
      exact List.any_eq_false.mpr (fun x _ hx => by cases hx)
    | nested gs => exact ⟨rfl, rfl⟩
  · by_cases hc2 : cond = "both"
    · subst hc2
      cases codes with
      | flat cs =>
        exact absurd h (by simp [goodGroup])
      | nested gs =>
        have hgood : (gs.any fun g => !g.isEmpty) = true := by
          simpa [goodGroup] using h
        obtain ⟨g₀, hg₀mem, hg₀⟩ := List.any_eq_true.mp hgood
        have hg₀ne : g₀ ≠ [] := by
          cases g₀ with
          | nil => simp at hg₀
          | cons p g' => exact List.cons_ne_nil p g'
        constructor
        · show (gs.all fun g => g.any fun code => List.contains [] code) = false
          cases hb : gs.all fun g => g.any fun code => List.contains [] code with
          | false => rfl
          | true =>
            have hg : (g₀.any fun code => List.contains [] code) = false :=
              List.any_eq_false.mpr (fun x _ hx => by cases hx)
            have hgt := List.all_eq_true.mp hb g₀ hg₀mem
            rw [hg] at hgt
            cases hgt
        · show some ((gs.all fun g => g.all fun pre =>
              [].any fun code => pyStartswith code pre)) = some false
          cases hb : gs.all fun g => g.all fun pre =>
              [].any fun code => pyStartswith code pre with
          | false => rfl
          | true =>
            have hg : (g₀.all fun pre => [].any fun code => pyStartswith code pre)
                = false := by
              cases g₀ with
              | nil => exact absurd rfl hg₀ne
              | cons p g' => rfl
            have hgt := List.all_eq_true.mp hb g₀ hg₀mem
            rw [hg] at hgt
            cases hgt
    · constructor
      · show check_codes_exact [] ⟨cond, codes⟩ = false
        unfold check_codes_exact
        simp [hc1, hc2]
      · show check_codes_startswith [] ⟨cond, codes⟩ = some false
        unfold check_codes_startswith
        simp [hc1, hc2]

/-- On a mapping satisfying the invariants, the exact-mode categorizer
scores no category for the empty input. -/
theorem categorizeExact_empty_input (data : List (String × Category))
    (hg : goodData data = true) : categorizeExact [] data = [] := by
  induction data with
  | nil => rfl
  | cons p rest ih =>
    obtain ⟨cat, details⟩ := p
    have h1 : (details.codes.all goodGroup) = true :=
      List.all_eq_true.mp hg (cat, details) (List.mem_cons_self _ _)
    have h2 : goodData rest = true :=
      List.all_eq_true.mpr (fun x hx => List.all_eq_true.mp hg x (List.mem_cons_of_mem _ hx))
    have hany : (details.codes.any fun cg => check_codes_exact [] cg) = false :=
      List.any_eq_false.mpr (fun cg hcg hx => by
        have hgd : goodGroup cg = true := by
          have := List.all_eq_true.mp h1 cg hcg
          exact this
        rw [(matchers_false_on_empty_input cg hgd).1] at hx
        cases hx)
    show (if details.codes.any fun cg => check_codes_exact [] cg then
        cat :: categorizeExact [] rest else categorizeExact [] rest) = []
    rw [hany, if_neg Bool.false_ne_true]
    exact ih h2

/-- On an invariant-satisfying group list, the per-category prefix-mode
loop rejects the empty input without raising. -/
theorem catMatchStartswith_empty_input (cgs : List CodeGroup)
    (h : cgs.all goodGroup = true) : catMatchStartswith [] cgs = some false := by
  induction cgs with
  | nil => rfl
  | cons cg rest ih =>
    have h1 : goodGroup cg = true := List.all_eq_true.mp h cg (List.mem_cons_self cg rest)
    have h2 : rest.all goodGroup = true :=
      List.all_eq_true.mpr (fun x hx => List.all_eq_true.mp h x (List.mem_cons_of_mem cg hx))
    show (match check_codes_startswith [] cg with
      | none => none
      | some true => some true
      | some false => catMatchStartswith [] rest) = some false
    rw [(matchers_false_on_empty_input cg h1).2]
    exact ih h2

/-- On a mapping satisfying the invariants, the prefix-mode categorizer
scores no category for the empty input. -/
theorem categorizeStartswith_empty_input (data : List (String × Category))
    (hg : goodData data = true) : categorizeStartswith [] data = some [] := by
  induction data with
  | nil => rfl
  | cons p rest ih =>
    obtain ⟨cat, details⟩ := p
    have h1 : (details.codes.all goodGroup) = true := by
      have hm := List.all_eq_true.mp hg (cat, details) (List.mem_cons_self _ _)
      exact hm
    have h2 : goodData rest = true :=
      List.all_eq_true.mpr (fun x hx => List.all_eq_true.mp hg x (List.mem_cons_of_mem _ hx))
    show (match catMatchStartswith [] details.codes with
      | none => none
      | some true => (categorizeStartswith [] rest).map (fun l => cat :: l)
      | some false => categorizeStartswith [] rest) = some []
    rw [catMatchStartswith_empty_input details.codes h1]
    exact ih h2

/-- C7: on a mapping version satisfying the section-3 invariants, the
empty input code list is valid: every matcher call rejects it (first
conjunct) and `calculate_score` returns score 0, printing only the header
line when `list_cat` is set (second conjunct). -/
theorem c7_empty_input_scores_zero
    (md : List (String × List (String × Category))) (mp : String)
    (data : List (String × Category)) (lc ex : Bool)
    (hm : lookup md mp = some data) (hg : goodData data = true) :
    (∀ p ∈ data, ∀ cg ∈ p.2.codes,
      check_codes_exact [] cg = false ∧ check_codes_startswith [] cg = some false)
    ∧ calculate_score md (.pylist []) mp lc ex
        = .ok 0 (if lc then [headerLine] else []) := by
  constructor
  · intro p hp cg hcg
    exact matchers_false_on_empty_input cg
      (List.all_eq_true.mp (List.all_eq_true.mp hg p hp) cg hcg)
  · have hv : asCodes (.pylist []) = some [] := rfl
    have hs : (if ex then some (categorizeExact [] data)
        else categorizeStartswith [] data) = some [] := by
      cases ex
      · exact categorizeStartswith_empty_input data hg
      · rw [if_pos rfl, categorizeExact_empty_input data hg]
    unfold calculate_score
    simp only [hm, hv, hs]
    cases lc <;> rfl

/-- Witness for C7: the empty list input on the concrete liver mapping
(which satisfies the invariants) returns score 0 and prints only the
header line. -/
theorem c7_witness :
    calculate_score mdemo (.pylist []) "icdtest" true false = .ok 0 [headerLine] :=
  (c7_empty_input_scores_zero mdemo "icdtest" liverData true false rfl (by decide)).2

/-! ## C8: permuting the input codes never changes the result -/

/-- The exact matcher only inspects the input code list through
membership, so it is invariant under permutation of the input. -/
theorem check_codes_exact_perm {icd₁ icd₂ : List String} (h : icd₁.Perm icd₂)
    (cg : CodeGroup) : check_codes_exact icd₁ cg = check_codes_exact icd₂ cg := by
  unfold check_codes_exact
  simp only [perm_contains h]

/-- The prefix matcher only inspects the input code list through
existential scans and emptiness, so it is invariant under permutation of
the input, errors included. -/
theorem check_codes_startswith_perm {icd₁ icd₂ : List String} (h : icd₁.Perm icd₂)
    (cg : CodeGroup) :
    check_codes_startswith icd₁ cg = check_codes_startswith icd₂ cg := by
  unfold check_codes_startswith
  simp only [perm_any h, perm_isEmpty h]

/-- Per-category prefix loop is invariant under permutation of the
input. -/
theorem catMatchStartswith_perm {icd₁ icd₂ : List String} (h : icd₁.Perm icd₂) :
    ∀ cgs, catMatchStartswith icd₁ cgs = catMatchStartswith icd₂ cgs := by
  intro cgs
  induction cgs with
  | nil => rfl
  | cons cg rest ih =>
    simp only [catMatchStartswith]
    rw [check_codes_startswith_perm h cg, ih]

/-- The exact-mode categorizer produces the same scored list for permuted
inputs. -/
theorem categorizeExact_perm {icd₁ icd₂ : List String} (h : icd₁.Perm icd₂) :
    ∀ data, categorizeExact icd₁ data = categorizeExact icd₂ data := by
  intro data
  induction data with
  | nil => rfl
  | cons p rest ih =>
    obtain ⟨cat, details⟩ := p
    simp only [categorizeExact]
    rw [list_any_congr (fun cg _ => check_codes_exact_perm h cg), ih]

/-- The prefix-mode categorizer produces the same outcome for permuted
inputs. -/
theorem categorizeStartswith_perm {icd₁ icd₂ : List String} (h : icd₁.Perm icd₂) :
    ∀ data, categorizeStartswith icd₁ data = categorizeStartswith icd₂ data := by
  intro data
  induction data with
  | nil => rfl
  | cons p rest ih =>
    obtain ⟨cat, details⟩ := p
    simp only [categorizeStartswith]
    rw [catMatchStartswith_perm h details.codes, ih]

/-- C8: permuting the input code list never changes the outcome of
`calculate_score` — neither the score, nor the printed lines, nor which
error (if any) is signalled — for every mapping table, mapping version id
and both match modes. -/
theorem c8_input_order_independent
    (md : List (String × List (String × Category))) (mp : String) (lc ex : Bool)
    {xs ys : List PyVal} (h : xs.Perm ys) :
    calculate_score md (.pylist xs) mp lc ex
      = calculate_score md (.pylist ys) mp lc ex := by
  unfold calculate_score
  cases hm : lookup md mp with
  | none => rfl
  | some data =>
    have hall : (xs.all fun v => match v with | .vstr _ => true | .vint _ => false)
        = (ys.all fun v => match v with | .vstr _ => true | .vint _ => false) :=
      perm_all h _
    by_cases hb : (xs.all fun v => match v with | .vstr _ => true | .vint _ => false) = true
    · have hb' : (ys.all fun v => match v with | .vstr _ => true | .vint _ => false)
          = true := hall ▸ hb
      have hx : asCodes (.pylist xs)
          = some (xs.filterMap fun v => match v with | .vstr s => some s | .vint _ => none) := by
        simp only [asCodes]
        rw [if_pos hb]
      have hy : asCodes (.pylist ys)
          = some (ys.filterMap fun v => match v with | .vstr s => some s | .vint _ => none) := by
        simp only [asCodes]
        rw [if_pos hb']
      have hp : (xs.filterMap fun v => match v with | .vstr s => some s | .vint _ => none).Perm
          (ys.filterMap fun v => match v with | .vstr s => some s | .vint _ => none) :=
        h.filterMap _
      simp only [hx, hy, categorizeExact_perm hp, categorizeStartswith_perm hp]
    · have hb' : ¬((ys.all fun v => match v with | .vstr _ => true | .vint _ => false)
          = true) := by
        rw [← hall]
        exact hb
      have hx : asCodes (.pylist xs) = none := by
        simp only [asCodes]
        rw [if_neg hb]
      have hy : asCodes (.pylist ys) = none := by
        simp only [asCodes]
        rw [if_neg hb']
      simp only [hx, hy]

/-- Witness for C8: swapping the two codes of a concrete input leaves the
result unchanged. -/
theorem c8_witness :
    calculate_score mdemo (.pylist [.vstr "K74.6", .vstr "K74.7"]) "icdtest" true false
      = calculate_score mdemo (.pylist [.vstr "K74.7", .vstr "K74.6"]) "icdtest" true false :=
  c8_input_order_independent mdemo "icdtest" true false
    (List.Perm.swap (PyVal.vstr "K74.7") (PyVal.vstr "K74.6") [])

/-- Witness for C10 at the empty input list. -/
theorem c10_witness :
    check_codes_exact [] { condition := "both", codes := .nested [] } = true
    ∧ check_codes_startswith [] { condition := "both", codes := .nested [] } = some true :=
  c10_empty_both_group_always_matches []
